import Mathlib

/-!
Verification of the smart-cropping core of the opus-video-service repository:
the smoothed virtual camera (`SmoothedCameraman`), the speaker tracker
(`SpeakerTracker`), the per-scene strategy classifier
(`analyze_scenes_strategy`) and the per-frame crop/resize fallback of the
cropping service.  Python floats are modelled by rationals, Python ints by
integers, Python dicts by insertion-ordered association lists.
-/

namespace OpusVideo

/-- Python `int()` applied to a rational value: truncation toward zero. -/
def pyInt (q : ℚ) : ℤ := if q < 0 then ⌈q⌉ else ⌊q⌋

/-- State of `SmoothedCameraman` (src/features/cropping/tracking.py, lines 4-33). -/
structure Cameraman where
  output_width : ℤ
  output_height : ℤ
  video_width : ℤ
  video_height : ℤ
  aspect : ℚ
  current_center_x : ℚ
  target_center_x : ℚ
  crop_height : ℤ
  crop_width : ℤ
  safe_zone_radius : ℚ
deriving Repr, DecidableEq

/-- `SmoothedCameraman.__init__`: crop dimensions from the aspect ratio, capped
at the video width; centres start at the middle of the frame; the safe zone is
a quarter of the crop width (`self.safe_zone_radius = self.crop_width * 0.25`). -/
def mkCameraman (ow oh vw vh : ℤ) (aspect : ℚ) : Cameraman :=
  let cw0 : ℤ := pyInt ((vh : ℚ) * aspect)
  let cw : ℤ := if cw0 > vw then vw else cw0
  let ch : ℤ := if cw0 > vw then pyInt ((vw : ℚ) / aspect) else vh
  { output_width := ow
    output_height := oh
    video_width := vw
    video_height := vh
    aspect := aspect
    current_center_x := (vw : ℚ) / 2
    target_center_x := (vw : ℚ) / 2
    crop_height := ch
    crop_width := cw
    safe_zone_radius := (cw : ℚ) * (1 / 4) }

/-- `SmoothedCameraman.update_target`: a present box `(x, y, w, h)` moves the
target centre to `x + w / 2`; an absent box leaves it unchanged. -/
def update_target (s : Cameraman) (face_box : Option (ℚ × ℚ × ℚ × ℚ)) : Cameraman :=
  match face_box with
  | none => s
  | some b => { s with target_center_x := b.1 + b.2.2.1 / 2 }

/-- First clamp in `get_crop_box`: `if current - half < 0: current = half`. -/
def clampLow (s : Cameraman) (c : ℚ) : ℚ :=
  if c - (s.crop_width : ℚ) / 2 < 0 then (s.crop_width : ℚ) / 2 else c

/-- Second clamp in `get_crop_box`: `if current + half > video_width:
current = video_width - half`, applied after `clampLow`. -/
def clampCenter (s : Cameraman) (c : ℚ) : ℚ :=
  if clampLow s c + (s.crop_width : ℚ) / 2 > (s.video_width : ℚ) then
    (s.video_width : ℚ) - (s.crop_width : ℚ) / 2
  else clampLow s c

/-- Pan direction in `get_crop_box`: `1 if diff > 0 else -1`. -/
def panDir (s : Cameraman) : ℚ :=
  if s.target_center_x - s.current_center_x > 0 then 1 else -1

/-- Pan speed in `get_crop_box`: 15.0 for a large reframe
(`abs(diff) > crop_width * 0.5`), 3.0 otherwise. -/
def panSpeed (s : Cameraman) : ℚ :=
  if |s.target_center_x - s.current_center_x| > (s.crop_width : ℚ) * (1 / 2) then 15 else 3

/-- The moved centre inside `get_crop_box` when outside the dead zone: step by
`direction * speed`, snapping to the target when the step crosses it. -/
def movedCenter (s : Cameraman) : ℚ :=
  if (panDir s = 1 ∧ s.target_center_x - (s.current_center_x + panDir s * panSpeed s) < 0) ∨
     (panDir s = -1 ∧ s.target_center_x - (s.current_center_x + panDir s * panSpeed s) > 0) then
    s.target_center_x
  else s.current_center_x + panDir s * panSpeed s

/-- The centre update of `get_crop_box(force_snap=False)` before clamping:
inside the dead zone (`abs(diff) <= safe_zone_radius`) the centre is kept. -/
def moveCenter (s : Cameraman) : ℚ :=
  if |s.target_center_x - s.current_center_x| > s.safe_zone_radius then movedCenter s
  else s.current_center_x

/-- `SmoothedCameraman.get_crop_box`: returns the `(x1, y1, x2, y2)` crop box
and the updated camera state (lines 43-83 of tracking.py). -/
def get_crop_box (s : Cameraman) (force_snap : Bool) :
    (ℤ × ℤ × ℤ × ℤ) × Cameraman :=
  let c := clampCenter s (if force_snap then s.target_center_x else moveCenter s)
  let x1 := max 0 (pyInt (c - (s.crop_width : ℚ) / 2))
  let x2 := min s.video_width (pyInt (c + (s.crop_width : ℚ) / 2))
  ((x1, 0, x2, s.video_height), { s with current_center_x := c })

/-- One smoothed (non-snapping) camera update. -/
def panStep (s : Cameraman) : Cameraman := (get_crop_box s false).2

/-- `n` repeated smoothed camera updates. -/
def iterPan : ℕ → Cameraman → Cameraman
  | 0, s => s
  | n + 1, s => panStep (iterPan n s)

/-- A horizontal centre from which the crop rectangle fits inside the frame. -/
def centerInBounds (s : Cameraman) (x : ℚ) : Prop :=
  (s.crop_width : ℚ) / 2 ≤ x ∧ x + (s.crop_width : ℚ) / 2 ≤ (s.video_width : ℚ)

/-- The crop-in-frame invariant on the camera state:
`current_center_x ± crop_width / 2` lies within `[0, video_width]`. -/
def inFrame (s : Cameraman) : Prop :=
  0 ≤ s.current_center_x - (s.crop_width : ℚ) / 2 ∧
  s.current_center_x + (s.crop_width : ℚ) / 2 ≤ (s.video_width : ℚ)

instance (s : Cameraman) (x : ℚ) : Decidable (centerInBounds s x) := by
  unfold centerInBounds; infer_instance

instance (s : Cameraman) : Decidable (inFrame s) := by
  unfold inFrame; infer_instance

/-- A concrete camera over a 1000x640 source, as built by the cropping service
for a 1080x1920 output with the configured 9:16 aspect ratio. -/
def cam0 : Cameraman := mkCameraman 1080 1920 1000 640 (9 / 16)

/-- One entry of `SpeakerTracker.known_faces`. -/
structure KnownFace where
  id : ℤ
  center : ℚ
  last_frame : ℤ
deriving Repr, DecidableEq

/-- One face detection fed to `SpeakerTracker.get_target`:
a `box = (x, y, w, h)` and a `score`. -/
structure FaceDet where
  box : ℚ × ℚ × ℚ × ℚ
  score : ℚ
deriving Repr, DecidableEq

/-- A face detection after identity matching (the entries of
`current_candidates` in `get_target`). -/
structure Candidate where
  id : ℤ
  box : ℚ × ℚ × ℚ × ℚ
  score : ℚ
deriving Repr, DecidableEq

/-- State of `SpeakerTracker` (tracking.py, lines 85-100).  The Python dict
`speaker_scores` is modelled as an insertion-ordered association list. -/
structure Tracker where
  active_speaker_id : Option ℤ
  speaker_scores : List (ℤ × ℚ)
  last_seen : List (ℤ × ℤ)
  locked_counter : ℤ
  stabilization_threshold : ℤ
  switch_cooldown : ℤ
  last_switch_frame : ℤ
  next_id : ℤ
  known_faces : List KnownFace
deriving Repr, DecidableEq

/-- `SpeakerTracker.__init__`. -/
def mkTracker (stabilization_frames cooldown_frames : ℤ) : Tracker :=
  { active_speaker_id := none
    speaker_scores := []
    last_seen := []
    locked_counter := 0
    stabilization_threshold := stabilization_frames
    switch_cooldown := cooldown_frames
    last_switch_frame := -1000
    next_id := 0
    known_faces := [] }

/-- Horizontal centre of a face box: `center_x = x + w / 2`. -/
def faceCenter (f : FaceDet) : ℚ := f.box.1 + f.box.2.2.1 / 2

/-- One iteration of the inner matching loop of `get_target` (lines 116-123):
skip known faces last seen more than 30 frames ago, keep the id of the
strictly closest centre below the running threshold. -/
def matchStep (frame_number : ℤ) (center : ℚ)
    (acc : ℤ × ℚ) (kf : KnownFace) : ℤ × ℚ :=
  if frame_number - kf.last_frame > 30 then acc
  else if |center - kf.center| < acc.2 then (kf.id, |center - kf.center|)
  else acc

/-- The inner matching loop of `get_target` (lines 113-123): the threshold
starts at `width * 0.15` and the best id at `-1` (no match). -/
def bestMatch (width : ℚ) (frame_number : ℤ) (kfs : List KnownFace) (center : ℚ) : ℤ :=
  (kfs.foldl (matchStep frame_number center) ((-1 : ℤ), width * (3 / 20))).1

/-- Matching of a single face (lines 109-136): resolve its id (allocating a
fresh one from `next_id` when `bestMatch` returns `-1`), replace that id's
entry in `known_faces`, and emit the candidate. -/
def matchFace (width : ℚ) (frame_number : ℤ) (st : List KnownFace × ℤ) (f : FaceDet) :
    Candidate × (List KnownFace × ℤ) :=
  let center := faceCenter f
  let bm := bestMatch width frame_number st.1 center
  let best_id : ℤ := if bm = -1 then st.2 else bm
  let next' : ℤ := if bm = -1 then st.2 + 1 else st.2
  let kfs' := (st.1.filter (fun kf => kf.id ≠ best_id)) ++
    [{ id := best_id, center := center, last_frame := frame_number }]
  (⟨best_id, f.box, f.score⟩, (kfs', next'))

/-- The full matching pass of `get_target` over the frame's face list, in
order, threading `known_faces` and `next_id`. -/
def matchCandidates (width : ℚ) (frame_number : ℤ) :
    List FaceDet → List KnownFace × ℤ → List Candidate × (List KnownFace × ℤ)
  | [], st => ([], st)
  | f :: fs, st =>
    let r := matchFace width frame_number st f
    let rest := matchCandidates width frame_number fs r.2
    (r.1 :: rest.1, rest.2)

/-- `dict.get(k, default)` on the association-list model. -/
def dictGet (d : List (ℤ × ℚ)) (k : ℤ) (default : ℚ) : ℚ :=
  match d.find? (fun e => e.1 == k) with
  | some e => e.2
  | none => default

/-- `dict[k] = v` on the association-list model: update in place when the key
is present, append otherwise (Python dicts preserve insertion order). -/
def dictSet (d : List (ℤ × ℚ)) (k : ℤ) (v : ℚ) : List (ℤ × ℚ) :=
  if d.any (fun e => e.1 == k) then
    d.map (fun e => if e.1 == k then (k, v) else e)
  else d ++ [(k, v)]

/-- Score decay of `get_target` (lines 139-142): multiply every score by 0.85
and delete the entries that fall below 0.1. -/
def decayScores (d : List (ℤ × ℚ)) : List (ℤ × ℚ) :=
  d.filterMap (fun e =>
    if e.2 * (17 / 20) < 1 / 10 then none else some (e.1, e.2 * (17 / 20)))

/-- Score accumulation of `get_target` (lines 144-147): add
`score / (width * width * 0.05)` to each candidate's accumulator. -/
def accumScores (width : ℚ) (d : List (ℤ × ℚ)) (cands : List Candidate) : List (ℤ × ℚ) :=
  cands.foldl
    (fun d c => dictSet d c.id (dictGet d c.id 0 + c.score / (width * width * (1 / 20)))) d

/-- One iteration of the best-speaker loop of `get_target` (lines 156-165):
the candidate's accumulated score, tripled for the current active speaker,
must strictly beat the running maximum. -/
def selectStep (active : Option ℤ) (scores : List (ℤ × ℚ))
    (acc : Option Candidate × ℚ) (c : Candidate) : Option Candidate × ℚ :=
  if (if some c.id = active then dictGet scores c.id 0 * 3 else dictGet scores c.id 0) >
      acc.2 then
    (some c, if some c.id = active then dictGet scores c.id 0 * 3 else dictGet scores c.id 0)
  else acc

/-- Best-speaker selection of `get_target` (lines 153-165): highest
incumbency-adjusted accumulated score wins, over a running maximum started
at `-1`. -/
def selectBest (active : Option ℤ) (scores : List (ℤ × ℚ)) (cands : List Candidate) :
    Option Candidate :=
  (cands.foldl (selectStep active scores) ((none : Option Candidate), (-1 : ℚ))).1

/-- `SpeakerTracker.get_target` (lines 102-186): identity matching, score
decay and accumulation, best-speaker selection and switch arbitration with
the cooldown.  Returns the chosen box (or `none`) and the updated tracker. -/
def get_target (s : Tracker) (faces : List FaceDet) (frame_number : ℤ) (width : ℚ) :
    Option (ℚ × ℚ × ℚ × ℚ) × Tracker :=
  let m := matchCandidates width frame_number faces (s.known_faces, s.next_id)
  let cands := m.1
  let scores2 := accumScores width (decayScores s.speaker_scores) cands
  let s1 : Tracker :=
    { s with known_faces := m.2.1, next_id := m.2.2, speaker_scores := scores2 }
  if cands.isEmpty then (none, s1)
  else
    match selectBest s.active_speaker_id scores2 cands with
    | none => (none, s1)
    | some bc =>
      if some bc.id = s.active_speaker_id then
        (some bc.box, { s1 with locked_counter := s1.locked_counter + 1 })
      else if frame_number - s.last_switch_frame < s.switch_cooldown then
        match cands.find? (fun c => some c.id == s.active_speaker_id) with
        | some oc => (some oc.box, s1)
        | none =>
          (some bc.box, { s1 with active_speaker_id := some bc.id,
                                  last_switch_frame := frame_number,
                                  locked_counter := 0 })
      else
        (some bc.box, { s1 with active_speaker_id := some bc.id,
                                last_switch_frame := frame_number,
                                locked_counter := 0 })

/-- Per-scene strategy labels of `analyze_scenes_strategy`. -/
inductive Strategy where
  | TRACK : Strategy
  | GENERAL : Strategy
deriving Repr, DecidableEq

/-- The three sampled frame indices of a scene in `analyze_scenes_strategy`
(scenes.py, lines 60-64): start + 5, the truncated midpoint, end - 5. -/
def sceneFrameChecks (start_frame end_frame : ℤ) : List ℤ :=
  [start_frame + 5, pyInt (((start_frame : ℚ) + (end_frame : ℚ)) / 2), end_frame - 5]

/-- The successfully read sample counts of a scene: `detect i = none` models a
failed `cap.read()` at frame `i`, `some k` a frame on which the face detector
returned `k` candidates (lines 66-74). -/
def sceneFaceCounts (detect : ℤ → Option ℕ) (start_frame end_frame : ℤ) : List ℕ :=
  (sceneFrameChecks start_frame end_frame).filterMap detect

/-- The per-scene decision logic of `analyze_scenes_strategy` (lines 76-90):
an empty sample list yields an average of 0; averages above 1.2 or below 0.5
give GENERAL, anything else TRACK. -/
def sceneStrategy (counts : List ℕ) : Strategy :=
  let avg : ℚ := if counts = [] then 0 else ((counts.map (fun n => (n : ℚ))).sum) / counts.length
  if avg > 6 / 5 ∨ avg < 1 / 2 then Strategy.GENERAL else Strategy.TRACK

/-- `analyze_scenes_strategy` on its non-exceptional path: one strategy per
scene, in order. -/
def analyze_scenes_strategy (detect : ℤ → Option ℕ) (scenes : List (ℤ × ℤ)) :
    List Strategy :=
  scenes.map (fun sc => sceneStrategy (sceneFaceCounts detect sc.1 sc.2))

/-- Shape of a BGR frame (row and column counts; the three channels are
implicit in `npSize`). -/
structure Image where
  rows : ℤ
  cols : ℤ
deriving Repr, DecidableEq

/-- Normalisation of one numpy slice endpoint against an axis of length `n`:
negative indices count from the end, and both ends are clamped to `[0, n]`. -/
def npIndex (n i : ℤ) : ℤ := if i < 0 then max 0 (n + i) else min i n

/-- Length of the numpy slice `a[i:j]` on an axis of length `n`. -/
def npSliceLen (n i j : ℤ) : ℤ := max 0 (npIndex n j - npIndex n i)

/-- Shape of `frame[y1:y2, x1:x2]` (service.py, line 104). -/
def npCrop (frame : Image) (y1 y2 x1 x2 : ℤ) : Image :=
  { rows := npSliceLen frame.rows y1 y2, cols := npSliceLen frame.cols x1 x2 }

/-- `crop.size` for a 3-channel BGR array. -/
def npSize (img : Image) : ℤ := img.rows * img.cols * 3

/-- Modelled from the spec: contract of the external collaborator
`cv2.resize`, which is not part of this repository.  Resizing a non-empty
image yields an image of exactly the requested `(w, h)` dimensions; resizing
an empty image fails (cv2 raises), modelled as `none`. -/
def cvResize (img : Image) (w h : ℤ) : Option Image :=
  if 0 < img.rows ∧ 0 < img.cols then some { rows := h, cols := w } else none

/-- The hard-coded output width of `CroppingService.crop_video_to_vertical`. -/
def target_width : ℤ := 1080

/-- The hard-coded output height of `CroppingService.crop_video_to_vertical`. -/
def target_height : ℤ := 1920

/-- The crop-resize-fallback step of the per-frame loop of
`CroppingService.crop_video_to_vertical` (service.py, lines 104-110): crop,
and when the crop has zero size resize the full frame instead. -/
def processFrame (frame : Image) (x1 y1 x2 y2 : ℤ) : Option Image :=
  let crop := npCrop frame y1 y2 x1 x2
  if npSize crop = 0 then cvResize frame target_width target_height
  else cvResize crop target_width target_height

/-- A camera whose target was moved to 599 by a face box, 99 px right of the
current centre 500 (safe zone radius 90, crop width 360). -/
def camA : Cameraman := update_target cam0 (some (549, 0, 100, 50))

/-- The state the camera `camA` settles in: centre 509, still 90 px short of
the target 599 (the edge of the dead zone). -/
def camAfix : Cameraman := ⟨1080, 1920, 1000, 640, 9 / 16, 509, 599, 640, 360, 90⟩

/-- A camera whose target was moved to 0, outside the clamp range. -/
def camB : Cameraman := update_target cam0 (some (0, 0, 0, 0))

/-- A reachable camera state at the left frame edge: a face box at the edge
sets the target to 5, a scene-start snap clamps the centre to 180
(crop width 360), and the target 5 stays outside the clamp range. -/
def camC : Cameraman := (get_crop_box (update_target cam0 (some (0, 0, 10, 0))) true).2

/-- A tracker locked on identity 0 (seen at centre 500 on frame 99) that
switched 10 frames ago, so it is still inside the 30-frame cooldown. -/
def trackC3 : Tracker :=
  { mkTracker 15 30 with
      active_speaker_id := some 0
      speaker_scores := [(0, 1)]
      last_switch_frame := 90
      next_id := 1
      known_faces := [⟨0, 500, 99⟩] }

/-- Two detections on one frame of a 1000 px wide video: the incumbent
speaker's face at centre 500, and a much higher-scoring new face at
centre 100. -/
def facesC3 : List FaceDet := [⟨(450, 0, 100, 80), 100⟩, ⟨(50, 0, 100, 80), 10000⟩]

/-- A tracker holding one accumulated score entry and seeing no faces. -/
def trackC6 : Tracker := { mkTracker 15 30 with speaker_scores := [(5, 1)] }

/-- Two detections of one frame whose horizontal centres (500 and 520) are
within `0.15 * 1000` of each other. -/
def facesC10 : List FaceDet := [⟨(450, 0, 100, 80), 100⟩, ⟨(470, 0, 100, 80), 200⟩]

lemma panStep_target (s : Cameraman) : (panStep s).target_center_x = s.target_center_x := rfl

lemma panStep_crop (s : Cameraman) : (panStep s).crop_width = s.crop_width := rfl

lemma panStep_vw (s : Cameraman) : (panStep s).video_width = s.video_width := rfl

lemma panStep_safe (s : Cameraman) : (panStep s).safe_zone_radius = s.safe_zone_radius := rfl

lemma panStep_current_eq (s : Cameraman) :
    (panStep s).current_center_x = clampCenter s (moveCenter s) := rfl

lemma clampCenter_mem (s : Cameraman) (hcw : s.crop_width ≤ s.video_width) (c : ℚ) :
    centerInBounds s (clampCenter s c) := by
  have hq : (s.crop_width : ℚ) ≤ (s.video_width : ℚ) := by exact_mod_cast hcw
  unfold centerInBounds clampCenter clampLow
  split_ifs <;> constructor <;> linarith

lemma clampCenter_eq_self (s : Cameraman) {c : ℚ} (h : centerInBounds s c) :
    clampCenter s c = c := by
  obtain ⟨h1, h2⟩ := h
  unfold clampCenter clampLow
  split_ifs <;> first | rfl | linarith

lemma panSpeed_cases (s : Cameraman) : panSpeed s = 15 ∨ panSpeed s = 3 := by
  unfold panSpeed; split_ifs <;> simp

lemma panSpeed_ge3 (s : Cameraman) : 3 ≤ panSpeed s := by
  rcases panSpeed_cases s with h | h
  · rw [h]; norm_num
  · rw [h]

lemma panSpeed_pos (s : Cameraman) : 0 < panSpeed s := by
  linarith [panSpeed_ge3 s]

/-- Full characterisation of the pre-clamp centre update of
`get_crop_box(force_snap=False)`: keep inside the dead zone, snap onto the
target when the step would cross it, otherwise step by the pan speed in the
direction of the difference. -/
lemma moveCenter_spec (s : Cameraman) :
    (|s.target_center_x - s.current_center_x| ≤ s.safe_zone_radius ∧
      moveCenter s = s.current_center_x) ∨
    (s.safe_zone_radius < |s.target_center_x - s.current_center_x| ∧
      ((|s.target_center_x - s.current_center_x| < panSpeed s ∧
          moveCenter s = s.target_center_x) ∨
       (panSpeed s ≤ |s.target_center_x - s.current_center_x| ∧
         ((0 < s.target_center_x - s.current_center_x ∧ panDir s = 1 ∧
             moveCenter s = s.current_center_x + panSpeed s) ∨
          (s.target_center_x - s.current_center_x < 0 ∧ panDir s = -1 ∧
             moveCenter s = s.current_center_x - panSpeed s))))) := by
  rcases le_or_lt |s.target_center_x - s.current_center_x| s.safe_zone_radius with hdz | hdz
  · left
    refine ⟨hdz, ?_⟩
    unfold moveCenter
    rw [if_neg (not_lt.mpr hdz)]
  · right
    refine ⟨hdz, ?_⟩
    have hmc : moveCenter s = movedCenter s := by
      unfold moveCenter; rw [if_pos hdz]
    rcases lt_trichotomy (s.target_center_x - s.current_center_x) 0 with hneg | hzero | hpos
    · have hdir : panDir s = -1 := by
        unfold panDir; rw [if_neg (by linarith)]
      have habs : |s.target_center_x - s.current_center_x| =
          -(s.target_center_x - s.current_center_x) := abs_of_neg hneg
      rcases lt_or_le (-(s.target_center_x - s.current_center_x)) (panSpeed s) with hlt | hge
      · left
        refine ⟨by rw [habs]; exact hlt, ?_⟩
        rw [hmc]; unfold movedCenter
        rw [hdir, if_pos]
        right
        exact ⟨rfl, by nlinarith⟩
      · right
        refine ⟨by rw [habs]; exact hge, Or.inr ⟨hneg, hdir, ?_⟩⟩
        rw [hmc]; unfold movedCenter
        rw [hdir, if_neg, neg_one_mul, ← sub_eq_add_neg]
        rintro (⟨h1, _⟩ | ⟨_, h2⟩)
        · norm_num at h1
        · nlinarith
    · have hdir : panDir s = -1 := by
        unfold panDir; rw [if_neg (by linarith)]
      left
      refine ⟨by rw [hzero]; simpa using panSpeed_pos s, ?_⟩
      rw [hmc]; unfold movedCenter
      rw [hdir, if_pos]
      right
      refine ⟨rfl, by nlinarith [panSpeed_pos s]⟩
    · have hdir : panDir s = 1 := by
        unfold panDir; rw [if_pos hpos]
      have habs : |s.target_center_x - s.current_center_x| =
          s.target_center_x - s.current_center_x := abs_of_pos hpos
      rcases lt_or_le (s.target_center_x - s.current_center_x) (panSpeed s) with hlt | hge
      · left
        refine ⟨by rw [habs]; exact hlt, ?_⟩
        rw [hmc]; unfold movedCenter
        rw [hdir, if_pos]
        left
        exact ⟨rfl, by nlinarith⟩
      · right
        refine ⟨by rw [habs]; exact hge, Or.inl ⟨hpos, hdir, ?_⟩⟩
        rw [hmc]; unfold movedCenter
        rw [hdir, if_neg, one_mul]
        rintro (⟨_, h1⟩ | ⟨h2, _⟩)
        · nlinarith
        · norm_num at h2

/-- Outside-in: when both the current and the target centre admit an in-frame
crop, the pre-clamp update already lands in bounds. -/
lemma moveCenter_mem (s : Cameraman)
    (hc : centerInBounds s s.current_center_x)
    (ht : centerInBounds s s.target_center_x) :
    centerInBounds s (moveCenter s) := by
  obtain ⟨hc1, hc2⟩ := hc
  obtain ⟨ht1, ht2⟩ := ht
  rcases moveCenter_spec s with ⟨_, he⟩ | ⟨_, ⟨_, he⟩ | ⟨hge, hstep⟩⟩
  · rw [he]; exact ⟨hc1, hc2⟩
  · rw [he]; exact ⟨ht1, ht2⟩
  · have hsp := panSpeed_pos s
    rcases hstep with ⟨hpos, _, he⟩ | ⟨hneg, _, he⟩
    · have habs : |s.target_center_x - s.current_center_x| =
          s.target_center_x - s.current_center_x := abs_of_pos hpos
      rw [habs] at hge
      rw [he]
      exact ⟨by linarith, by linarith⟩
    · have habs : |s.target_center_x - s.current_center_x| =
          -(s.target_center_x - s.current_center_x) := abs_of_neg hneg
      rw [habs] at hge
      rw [he]
      exact ⟨by linarith, by linarith⟩

lemma panStep_current (s : Cameraman)
    (hc : centerInBounds s s.current_center_x)
    (ht : centerInBounds s s.target_center_x) :
    (panStep s).current_center_x = moveCenter s := by
  rw [panStep_current_eq, clampCenter_eq_self s (moveCenter_mem s hc ht)]

lemma iterPan_succ (n : ℕ) (s : Cameraman) : iterPan (n + 1) s = panStep (iterPan n s) := rfl

lemma iterPan_add (m n : ℕ) (s : Cameraman) :
    iterPan (m + n) s = iterPan m (iterPan n s) := by
  induction m with
  | zero => rw [Nat.zero_add]; rfl
  | succ m ih => rw [Nat.succ_add, iterPan_succ, iterPan_succ, ih]

lemma iterPan_fix {s : Cameraman} (h : panStep s = s) (n : ℕ) : iterPan n s = s := by
  induction n with
  | zero => rfl
  | succ n ih => rw [iterPan_succ, ih, h]

lemma iterPan_fields (s : Cameraman) (n : ℕ) :
    (iterPan n s).target_center_x = s.target_center_x ∧
    (iterPan n s).crop_width = s.crop_width ∧
    (iterPan n s).video_width = s.video_width ∧
    (iterPan n s).safe_zone_radius = s.safe_zone_radius := by
  induction n with
  | zero => exact ⟨rfl, rfl, rfl, rfl⟩
  | succ n ih =>
    obtain ⟨h1, h2, h3, h4⟩ := ih
    refine ⟨?_, ?_, ?_, ?_⟩
    · rw [iterPan_succ, panStep_target, h1]
    · rw [iterPan_succ, panStep_crop, h2]
    · rw [iterPan_succ, panStep_vw, h3]
    · rw [iterPan_succ, panStep_safe, h4]

/-- Invariant of repeated smoothed updates: the centre stays in bounds and the
distance to the (fixed) target decreases by at least 3 per frame until it is
inside the safe zone. -/
lemma iterPan_progress (s : Cameraman) (hsafe : 0 ≤ s.safe_zone_radius)
    (hc : centerInBounds s s.current_center_x)
    (ht : centerInBounds s s.target_center_x) (n : ℕ) :
    centerInBounds s (iterPan n s).current_center_x ∧
    |s.target_center_x - (iterPan n s).current_center_x| ≤
      max s.safe_zone_radius (|s.target_center_x - s.current_center_x| - 3 * (n : ℚ)) := by
  induction n with
  | zero =>
    refine ⟨hc, ?_⟩
    have : ((0 : ℕ) : ℚ) = 0 := by norm_num
    rw [this]
    exact le_max_of_le_right (by simp [iterPan])
  | succ n ih =>
    obtain ⟨ihb, ihd⟩ := ih
    obtain ⟨hft, hfc, hfv, hfs⟩ := iterPan_fields s n
    set sn := iterPan n s with hsn
    have hcb : centerInBounds sn sn.current_center_x := by
      unfold centerInBounds at ihb ⊢; rw [hfc, hfv]; exact ihb
    have htb : centerInBounds sn sn.target_center_x := by
      unfold centerInBounds at ht ⊢; rw [hfc, hfv, hft]; exact ht
    have hstep : (iterPan (n + 1) s).current_center_x = moveCenter sn := by
      rw [iterPan_succ]; exact panStep_current sn hcb htb
    rcases moveCenter_spec sn with ⟨hd, he⟩ | ⟨hd, hrest⟩
    · rw [hft, hfs] at hd
      refine ⟨by rw [hstep, he]; exact ihb, ?_⟩
      rw [hstep, he]
      exact le_trans hd (le_max_left _ _)
    · rw [hft, hfs] at hd
      have hdmax : |s.target_center_x - sn.current_center_x| ≤
          |s.target_center_x - s.current_center_x| - 3 * (n : ℚ) := by
        rcases le_max_iff.mp ihd with h | h
        · linarith
        · exact h
      rcases hrest with ⟨hlt, he⟩ | ⟨hge, hcase⟩
      · refine ⟨by rw [hstep, he, hft]; exact ht, ?_⟩
        rw [hstep, he, hft]
        simp only [sub_self, abs_zero]
        exact le_max_of_le_left hsafe
      · have h3 : 3 ≤ panSpeed sn := panSpeed_ge3 sn
        rw [hft] at hge
        rcases hcase with ⟨hpos, _, he⟩ | ⟨hneg, _, he⟩
        · rw [hft] at hpos
          have habs : |s.target_center_x - sn.current_center_x| =
              s.target_center_x - sn.current_center_x := abs_of_pos hpos
          rw [habs] at hge hdmax
          obtain ⟨hb1, hb2⟩ := ihb
          obtain ⟨ht1, ht2⟩ := ht
          refine ⟨?_, ?_⟩
          · rw [hstep, he]
            exact ⟨by linarith [panSpeed_pos sn], by linarith⟩
          · rw [hstep, he,
              show s.target_center_x - (sn.current_center_x + panSpeed sn) =
                s.target_center_x - sn.current_center_x - panSpeed sn from by ring,
              abs_of_nonneg (by linarith)]
            refine le_max_of_le_right ?_
            push_cast
            linarith
        · rw [hft] at hneg
          have habs : |s.target_center_x - sn.current_center_x| =
              -(s.target_center_x - sn.current_center_x) := abs_of_neg hneg
          rw [habs] at hge hdmax
          obtain ⟨hb1, hb2⟩ := ihb
          obtain ⟨ht1, ht2⟩ := ht
          refine ⟨?_, ?_⟩
          · rw [hstep, he]
            exact ⟨by linarith, by linarith [panSpeed_pos sn]⟩
          · rw [hstep, he,
              show s.target_center_x - (sn.current_center_x - panSpeed sn) =
                -(-(s.target_center_x - sn.current_center_x) - panSpeed sn) from by ring,
              abs_neg, abs_of_nonneg (by linarith)]
            refine le_max_of_le_right ?_
            push_cast
            linarith

/-- C1 (amended): from any state whose current and target centres admit an
in-frame crop, after at least `ceil(|target - current| / 3)` smoothed
`get_crop_box(forceSnap=False)` calls (expressed as `|diff| ≤ 3 * n`) the
centre is within `safe_zone_radius` of the target and no longer moves;
it does not in general reach the target exactly. -/
theorem pan_reaches_dead_zone (s : Cameraman) (hsafe : 0 ≤ s.safe_zone_radius)
    (hc : centerInBounds s s.current_center_x)
    (ht : centerInBounds s s.target_center_x)
    (n : ℕ) (hn : |s.target_center_x - s.current_center_x| ≤ 3 * (n : ℚ)) :
    |s.target_center_x - (iterPan n s).current_center_x| ≤ s.safe_zone_radius ∧
    (iterPan (n + 1) s).current_center_x = (iterPan n s).current_center_x := by
  obtain ⟨hb, hd⟩ := iterPan_progress s hsafe hc ht n
  have h1 : |s.target_center_x - (iterPan n s).current_center_x| ≤ s.safe_zone_radius := by
    rcases le_max_iff.mp hd with h | h
    · exact h
    · have h0 := abs_nonneg (s.target_center_x - (iterPan n s).current_center_x)
      linarith
  refine ⟨h1, ?_⟩
  obtain ⟨hft, hfc, hfv, hfs⟩ := iterPan_fields s n
  set sn := iterPan n s with hsn
  have hcb : centerInBounds sn sn.current_center_x := by
    unfold centerInBounds at hb ⊢; rw [hfc, hfv]; exact hb
  have htb : centerInBounds sn sn.target_center_x := by
    unfold centerInBounds at ht ⊢; rw [hfc, hfv, hft]; exact ht
  rw [iterPan_succ, panStep_current sn hcb htb]
  rcases moveCenter_spec sn with ⟨_, he⟩ | ⟨hgt, _⟩
  · rw [he]
  · exfalso
    rw [hft, hfs] at hgt
    linarith

/-- C1 (counterexample): from centre 500 with target 599 (difference 99, crop
width 360, safe zone 90) the camera moves 500, 503, 506, 509 and then stops:
after `ceil(99/3) = 33` frames (and likewise after `ceil(99/15) = 7`) the
centre is 509, not the target 599, so exact convergence within
`ceil(|diff| / speed)` frames fails. -/
theorem exact_convergence_counterexample :
    |camA.target_center_x - camA.current_center_x| = 99 ∧
    ⌈(99 : ℚ) / 3⌉ = 33 ∧ ⌈(99 : ℚ) / 15⌉ = 7 ∧
    (iterPan 7 camA).current_center_x = 509 ∧
    (iterPan 33 camA).current_center_x = 509 ∧
    camA.target_center_x = 599 ∧ (509 : ℚ) ≠ 599 := by
  have hA : camA = ⟨1080, 1920, 1000, 640, 9 / 16, 500, 599, 640, 360, 90⟩ := by
    norm_num [camA, cam0, mkCameraman, update_target, pyInt]
  have e3 : iterPan 3 camA = camAfix := by
    show panStep (panStep (panStep camA)) = camAfix
    rw [hA]
    norm_num [panStep, get_crop_box, clampCenter, clampLow, moveCenter, movedCenter,
      panDir, panSpeed, camAfix]
  have hfix : panStep camAfix = camAfix := by
    norm_num [panStep, get_crop_box, clampCenter, clampLow, moveCenter, movedCenter,
      panDir, panSpeed, camAfix]
  have e7 : iterPan 7 camA = camAfix := by
    have h7 : (7 : ℕ) = 4 + 3 := by norm_num
    rw [h7, iterPan_add, e3, iterPan_fix hfix]
  have e33 : iterPan 33 camA = camAfix := by
    have h33 : (33 : ℕ) = 30 + 3 := by norm_num
    rw [h33, iterPan_add, e3, iterPan_fix hfix]
  refine ⟨by rw [hA]; norm_num, by norm_num, by rw [Int.ceil_eq_iff]; norm_num,
    ?_, ?_, by rw [hA], by norm_num⟩
  · rw [e7]; rfl
  · rw [e33]; rfl

/-- C1 (witness): on the camera `camA` (difference 99), after 33 frames the
centre is within the 90 px safe zone of the target and stationary. -/
theorem pan_reaches_dead_zone_witness :
    |camA.target_center_x - (iterPan 33 camA).current_center_x| ≤ camA.safe_zone_radius ∧
    (iterPan 34 camA).current_center_x = (iterPan 33 camA).current_center_x :=
  pan_reaches_dead_zone camA
    (by norm_num [camA, cam0, mkCameraman, update_target, pyInt])
    (by norm_num [camA, cam0, mkCameraman, update_target, pyInt, centerInBounds])
    (by norm_num [camA, cam0, mkCameraman, update_target, pyInt, centerInBounds])
    33
    (by norm_num [camA, cam0, mkCameraman, update_target, pyInt])

/-- After a snap, a further smoothed update cannot move the clamped centre:
stepping from the clamped target toward the target leaves the clamp range and
is clamped straight back. -/
lemma clampCenter_low (s : Cameraman) (hq : (s.crop_width : ℚ) ≤ (s.video_width : ℚ))
    {c : ℚ} (h : c - (s.crop_width : ℚ) / 2 < 0) :
    clampCenter s c = (s.crop_width : ℚ) / 2 := by
  have hlow : clampLow s c = (s.crop_width : ℚ) / 2 := by
    unfold clampLow; rw [if_pos h]
  unfold clampCenter
  rw [hlow, if_neg (not_lt.mpr (by linarith))]

lemma clampCenter_high (s : Cameraman)
    {c : ℚ} (h : ¬(c - (s.crop_width : ℚ) / 2 < 0))
    (h2 : c + (s.crop_width : ℚ) / 2 > (s.video_width : ℚ)) :
    clampCenter s c = (s.video_width : ℚ) - (s.crop_width : ℚ) / 2 := by
  have hlow : clampLow s c = c := by
    unfold clampLow; rw [if_neg h]
  unfold clampCenter
  rw [hlow, if_pos h2]

lemma pan_after_clamp (s s1 : Cameraman)
    (hsafe : 0 ≤ s.safe_zone_radius) (hcw : s.crop_width ≤ s.video_width)
    (hc1 : s1.current_center_x = clampCenter s s.target_center_x)
    (ht1 : s1.target_center_x = s.target_center_x)
    (hcw1 : s1.crop_width = s.crop_width)
    (hvw1 : s1.video_width = s.video_width)
    (hsf1 : s1.safe_zone_radius = s.safe_zone_radius) :
    clampCenter s1 (moveCenter s1) = clampCenter s s.target_center_x := by
  have hq : (s.crop_width : ℚ) ≤ (s.video_width : ℚ) := by exact_mod_cast hcw
  have hcongr : ∀ x : ℚ, clampCenter s1 x = clampCenter s x := by
    intro x
    unfold clampCenter clampLow
    rw [hcw1, hvw1]
  have hsp3 := panSpeed_ge3 s1
  by_cases h1 : s.target_center_x - (s.crop_width : ℚ) / 2 < 0
  · have hcc : clampCenter s s.target_center_x = (s.crop_width : ℚ) / 2 := by
      unfold clampCenter clampLow
      rw [if_pos h1, if_neg (not_lt.mpr (by linarith))]
    have hchalf : clampCenter s ((s.crop_width : ℚ) / 2) = (s.crop_width : ℚ) / 2 :=
      clampCenter_eq_self s ⟨le_refl _, by linarith⟩
    rcases moveCenter_spec s1 with ⟨_, he⟩ | ⟨_, ⟨_, he⟩ | ⟨_, hcase⟩⟩
    · rw [he, hc1, hcc, hcongr, hchalf]
    · rw [he, ht1, hcongr]
    · rcases hcase with ⟨hpos, _, he⟩ | ⟨hneg, _, he⟩
      · exfalso
        rw [ht1, hc1, hcc] at hpos
        linarith
      · rw [he, hc1, hcc, hcongr]
        exact clampCenter_low s hq (by linarith [panSpeed_pos s1])
  · by_cases h2 : s.target_center_x + (s.crop_width : ℚ) / 2 > (s.video_width : ℚ)
    · have hcc : clampCenter s s.target_center_x =
          (s.video_width : ℚ) - (s.crop_width : ℚ) / 2 := by
        unfold clampCenter clampLow
        rw [if_neg h1, if_pos h2]
      have hedge : clampCenter s ((s.video_width : ℚ) - (s.crop_width : ℚ) / 2) =
          (s.video_width : ℚ) - (s.crop_width : ℚ) / 2 :=
        clampCenter_eq_self s ⟨by linarith, by linarith⟩
      rcases moveCenter_spec s1 with ⟨_, he⟩ | ⟨_, ⟨_, he⟩ | ⟨_, hcase⟩⟩
      · rw [he, hc1, hcc, hcongr, hedge]
      · rw [he, ht1, hcongr]
      · rcases hcase with ⟨hpos, _, he⟩ | ⟨hneg, _, he⟩
        · rw [he, hc1, hcc, hcongr]
          exact clampCenter_high s
            (not_lt.mpr (by linarith [panSpeed_pos s1])) (by linarith [panSpeed_pos s1])
        · exfalso
          rw [ht1, hc1, hcc] at hneg
          linarith
    · have hcc : clampCenter s s.target_center_x = s.target_center_x := by
        unfold clampCenter clampLow
        rw [if_neg h1, if_neg h2]
      rcases moveCenter_spec s1 with ⟨_, he⟩ | ⟨hd, _⟩
      · rw [he, hc1, hcc, hcongr, hcc]
      · exfalso
        rw [ht1, hc1, hcc, hsf1] at hd
        simp only [sub_self, abs_zero] at hd
        linarith

/-- C8: from any camera state (with a nonnegative safe zone and a crop width
that fits the video), calling `get_crop_box(forceSnap=True)` and then
immediately `get_crop_box(forceSnap=False)` with the target unchanged returns
the identical `(x1, y1, x2, y2)` box, including when the snapped centre is
clamped at a frame edge. -/
theorem snap_then_pan_same_box (s : Cameraman)
    (hsafe : 0 ≤ s.safe_zone_radius) (hcw : s.crop_width ≤ s.video_width) :
    (get_crop_box (get_crop_box s true).2 false).1 = (get_crop_box s true).1 := by
  have hmain := pan_after_clamp s ((get_crop_box s true).2) hsafe hcw rfl rfl rfl rfl rfl
  have lhs : (get_crop_box (get_crop_box s true).2 false).1 =
      (max 0 (pyInt (clampCenter (get_crop_box s true).2
          (moveCenter (get_crop_box s true).2) - (s.crop_width : ℚ) / 2)), 0,
       min s.video_width (pyInt (clampCenter (get_crop_box s true).2
          (moveCenter (get_crop_box s true).2) + (s.crop_width : ℚ) / 2)),
       s.video_height) := rfl
  have rhs : (get_crop_box s true).1 =
      (max 0 (pyInt (clampCenter s s.target_center_x - (s.crop_width : ℚ) / 2)), 0,
       min s.video_width (pyInt (clampCenter s s.target_center_x + (s.crop_width : ℚ) / 2)),
       s.video_height) := rfl
  rw [lhs, rhs, hmain]

/-- C8 witness: the round trip on the camera `camB`, whose target 0 forces a
clamp at the left frame edge; both calls return the box (0, 0, 360, 640). -/
theorem snap_then_pan_same_box_witness :
    (0 ≤ camB.safe_zone_radius ∧ camB.crop_width ≤ camB.video_width) ∧
    (get_crop_box (get_crop_box camB true).2 false).1 = (get_crop_box camB true).1 :=
  ⟨⟨by norm_num [camB, cam0, mkCameraman, update_target, pyInt],
    by norm_num [camB, cam0, mkCameraman, update_target, pyInt]⟩,
   snap_then_pan_same_box camB
     (by norm_num [camB, cam0, mkCameraman, update_target, pyInt])
     (by norm_num [camB, cam0, mkCameraman, update_target, pyInt])⟩

/-- C2: after every call of `get_crop_box` (with either value of `force_snap`,
from any state whose crop width fits the video), the camera centre satisfies
`current_center_x - crop_width/2 ≥ 0` and
`current_center_x + crop_width/2 ≤ video_width`, so the crop rectangle lies
within the frame; and `update_target` preserves this invariant. -/
theorem crop_box_in_frame (s : Cameraman) (hcw : s.crop_width ≤ s.video_width) :
    (∀ snap : Bool, inFrame (get_crop_box s snap).2) ∧
    (∀ box : Option (ℚ × ℚ × ℚ × ℚ), inFrame s → inFrame (update_target s box)) := by
  constructor
  · intro snap
    cases snap
    · obtain ⟨h1, h2⟩ := clampCenter_mem s hcw (moveCenter s)
      exact ⟨by simpa using (by linarith : (0 : ℚ) ≤ clampCenter s (moveCenter s) -
        (s.crop_width : ℚ) / 2), h2⟩
    · obtain ⟨h1, h2⟩ := clampCenter_mem s hcw s.target_center_x
      exact ⟨by simpa using (by linarith : (0 : ℚ) ≤ clampCenter s s.target_center_x -
        (s.crop_width : ℚ) / 2), h2⟩
  · intro box h
    cases box with
    | none => exact h
    | some b => exact h

/-- C2 witness: the invariant holds after both kinds of `get_crop_box` call on
the concrete camera `cam0`. -/
theorem crop_box_in_frame_witness :
    cam0.crop_width ≤ cam0.video_width ∧
    inFrame (get_crop_box cam0 true).2 ∧ inFrame (get_crop_box cam0 false).2 :=
  ⟨by norm_num [cam0, mkCameraman, pyInt],
    (crop_box_in_frame cam0 (by norm_num [cam0, mkCameraman, pyInt])).1 true,
    (crop_box_in_frame cam0 (by norm_num [cam0, mkCameraman, pyInt])).1 false⟩

/-- C4 (counterexample): on the reachable camera `camC` (centre 180 at the
left clamp edge, target 5, crop width 360, safe zone 90) the difference -175
is outside the dead zone and not a large reframe, so the claim mandates a
step of exactly 3.0 down to 177 (too far from the target 5 to snap); the code
steps to 177 and then clamps the centre back to 180, moving 0 px, so the step
is not exactly 3.0 in every call. -/
theorem exact_step_counterexample :
    camC.current_center_x = 180 ∧ camC.target_center_x = 5 ∧
    camC.safe_zone_radius < |camC.target_center_x - camC.current_center_x| ∧
    ¬((camC.crop_width : ℚ) * (1 / 2) < |camC.target_center_x - camC.current_center_x|) ∧
    camC.target_center_x < camC.current_center_x - 3 ∧
    (panStep camC).current_center_x = 180 ∧
    (panStep camC).current_center_x ≠ camC.current_center_x - 3 := by
  refine ⟨?_, ?_, ?_, ?_, ?_, ?_, ?_⟩ <;>
    norm_num [camC, cam0, mkCameraman, update_target, pyInt, panStep, get_crop_box,
      clampCenter, clampLow, moveCenter, movedCenter, panDir, panSpeed]

/-- C4 (amended): in a `get_crop_box(force_snap=False)` call from a state
whose current centre admits an in-frame crop (true of every reachable state),
the centre does not move when `|target - current| ≤ safe_zone_radius`;
otherwise the new centre is the clamp (into
`[crop_width/2, video_width - crop_width/2]`) of the exact step: current plus
the pan speed (exactly 15 when `|diff| > 0.5 * crop_width`, exactly 3
otherwise) in the direction of the difference, or of the target itself when
that step would cross it.  The clamp can shorten the step when the target
lies outside the clamp range. -/
theorem dead_zone_and_two_speed_step_clamped (s : Cameraman)
    (hc : centerInBounds s s.current_center_x) :
    (|s.target_center_x - s.current_center_x| ≤ s.safe_zone_radius →
        (panStep s).current_center_x = s.current_center_x) ∧
    (s.safe_zone_radius < |s.target_center_x - s.current_center_x| →
        (panSpeed s =
          if (s.crop_width : ℚ) * (1 / 2) < |s.target_center_x - s.current_center_x|
          then 15 else 3) ∧
        (panDir s = if 0 < s.target_center_x - s.current_center_x then 1 else -1) ∧
        (|s.target_center_x - s.current_center_x| < panSpeed s →
            (panStep s).current_center_x = clampCenter s s.target_center_x) ∧
        (panSpeed s ≤ |s.target_center_x - s.current_center_x| →
            (panStep s).current_center_x =
              clampCenter s (s.current_center_x + panDir s * panSpeed s))) := by
  have hps : (panStep s).current_center_x = clampCenter s (moveCenter s) :=
    panStep_current_eq s
  rcases moveCenter_spec s with ⟨hd, he⟩ | ⟨hd, hrest⟩
  · refine ⟨fun _ => ?_, fun h => absurd h (not_lt.mpr hd)⟩
    rw [hps, he, clampCenter_eq_self s hc]
  · refine ⟨fun h => absurd hd (not_lt.mpr h), fun _ => ⟨rfl, rfl, ?_, ?_⟩⟩
    · intro hlt
      rcases hrest with ⟨_, he⟩ | ⟨h1, _⟩
      · rw [hps, he]
      · linarith
    · intro hge
      rcases hrest with ⟨h1, _⟩ | ⟨_, hstep⟩
      · linarith
      · rcases hstep with ⟨_, hdir, he⟩ | ⟨_, hdir, he⟩
        · rw [hps, he, hdir, one_mul]
        · rw [hps, he, hdir, neg_one_mul, ← sub_eq_add_neg]

/-- C4 witness: on the camera `camC` the slow 3 px step toward the target 5
applies and its result, 177, is clamped back to the frame edge 180. -/
theorem dead_zone_and_two_speed_step_clamped_witness :
    centerInBounds camC camC.current_center_x ∧
    ((|camC.target_center_x - camC.current_center_x| ≤ camC.safe_zone_radius →
        (panStep camC).current_center_x = camC.current_center_x) ∧
     (camC.safe_zone_radius < |camC.target_center_x - camC.current_center_x| →
        (panSpeed camC =
          if (camC.crop_width : ℚ) * (1 / 2) < |camC.target_center_x - camC.current_center_x|
          then 15 else 3) ∧
        (panDir camC = if 0 < camC.target_center_x - camC.current_center_x then 1 else -1) ∧
        (|camC.target_center_x - camC.current_center_x| < panSpeed camC →
            (panStep camC).current_center_x = clampCenter camC camC.target_center_x) ∧
        (panSpeed camC ≤ |camC.target_center_x - camC.current_center_x| →
            (panStep camC).current_center_x =
              clampCenter camC (camC.current_center_x + panDir camC * panSpeed camC)))) :=
  ⟨by norm_num [camC, cam0, mkCameraman, update_target, pyInt, get_crop_box,
      clampCenter, clampLow, centerInBounds],
    dead_zone_and_two_speed_step_clamped camC
      (by norm_num [camC, cam0, mkCameraman, update_target, pyInt, get_crop_box,
        clampCenter, clampLow, centerInBounds])⟩

lemma matchCandidates_proj (width : ℚ) (frame_number : ℤ) (fs : List FaceDet) :
    ∀ st, ((matchCandidates width frame_number fs st).1).map (fun c => (c.box, c.score)) =
      fs.map (fun f => (f.box, f.score)) := by
  induction fs with
  | nil => intro st; rfl
  | cons f fs ih =>
    intro st
    simp only [matchCandidates, List.map_cons, List.cons.injEq]
    exact ⟨rfl, ih _⟩

lemma matchCandidates_score_nonneg (width : ℚ) (frame_number : ℤ)
    {fs : List FaceDet} (hf : ∀ f ∈ fs, 0 ≤ f.score) (st : List KnownFace × ℤ) :
    ∀ c ∈ (matchCandidates width frame_number fs st).1, 0 ≤ c.score := by
  intro c hc
  have hmem : (c.box, c.score) ∈ fs.map (fun f => (f.box, f.score)) := by
    rw [← matchCandidates_proj width frame_number fs st]
    exact List.mem_map_of_mem _ hc
  obtain ⟨f, hfm, hfe⟩ := List.mem_map.mp hmem
  have hs : f.score = c.score := congrArg Prod.snd hfe
  rw [← hs]
  exact hf f hfm

lemma decayScores_ge (d : List (ℤ × ℚ)) : ∀ e ∈ decayScores d, 1 / 10 ≤ e.2 := by
  intro e he
  unfold decayScores at he
  obtain ⟨a, _, hae⟩ := List.mem_filterMap.mp he
  by_cases h : a.2 * (17 / 20) < 1 / 10
  · rw [if_pos h] at hae
    cases hae
  · rw [if_neg h] at hae
    injection hae with h2
    rw [← h2]
    exact not_lt.mp h

lemma dictGet_nonneg {d : List (ℤ × ℚ)} (h : ∀ e ∈ d, 0 ≤ e.2) (k : ℤ) :
    0 ≤ dictGet d k 0 := by
  unfold dictGet
  rcases hfind : d.find? (fun e => e.1 == k) with _ | e
  · rw [hfind]
  · rw [hfind]
    exact h e (List.mem_of_find?_eq_some hfind)

lemma dictSet_mem {d : List (ℤ × ℚ)} {k : ℤ} {v : ℚ} {e : ℤ × ℚ}
    (he : e ∈ dictSet d k v) : e = (k, v) ∨ e ∈ d := by
  unfold dictSet at he
  by_cases h : d.any (fun e => e.1 == k)
  · rw [if_pos h] at he
    obtain ⟨a, ha, hae⟩ := List.mem_map.mp he
    by_cases hk : (a.1 == k) = true
    · rw [if_pos hk] at hae
      left; exact hae.symm
    · rw [if_neg hk] at hae
      right; rw [← hae]; exact ha
  · rw [if_neg h] at he
    rcases List.mem_append.mp he with h1 | h1
    · right; exact h1
    · left; simpa using h1

lemma accumScores_nonneg (width : ℚ) :
    ∀ (cands : List Candidate) (d : List (ℤ × ℚ)),
      (∀ e ∈ d, 0 ≤ e.2) → (∀ c ∈ cands, 0 ≤ c.score) →
      ∀ e ∈ accumScores width d cands, 0 ≤ e.2 := by
  intro cands
  induction cands with
  | nil => intro d hd _ e he; exact hd e he
  | cons c cs ih =>
    intro d hd hc e he
    have hraw : 0 ≤ c.score / (width * width * (1 / 20)) :=
      div_nonneg (hc c (List.mem_cons_self c cs))
        (mul_nonneg (mul_self_nonneg width) (by norm_num))
    have hd' : ∀ a ∈ dictSet d c.id
        (dictGet d c.id 0 + c.score / (width * width * (1 / 20))), 0 ≤ a.2 := by
      intro a ha
      rcases dictSet_mem ha with h | h
      · rw [h]
        exact add_nonneg (dictGet_nonneg hd _) hraw
      · exact hd a h
    exact ih _ hd' (fun x hx => hc x (List.mem_cons_of_mem _ hx)) e he

lemma accumScores_untouched (width : ℚ) :
    ∀ (cands : List Candidate) (d : List (ℤ × ℚ)) (e : ℤ × ℚ),
      e ∈ accumScores width d cands → e.1 ∉ cands.map Candidate.id → e ∈ d := by
  intro cands
  induction cands with
  | nil => intro d e he _; exact he
  | cons c cs ih =>
    intro d e he hno
    simp only [List.map_cons, List.mem_cons, not_or] at hno
    obtain ⟨hne, hno'⟩ := hno
    have he' : e ∈ dictSet d c.id
        (dictGet d c.id 0 + c.score / (width * width * (1 / 20))) :=
      ih _ e he (by simpa using hno')
    rcases dictSet_mem he' with h | h
    · exact absurd (congrArg Prod.fst h) hne
    · exact h

lemma get_target_scores (s : Tracker) (faces : List FaceDet) (frame_number : ℤ)
    (width : ℚ) :
    (get_target s faces frame_number width).2.speaker_scores =
      accumScores width (decayScores s.speaker_scores)
        (matchCandidates width frame_number faces (s.known_faces, s.next_id)).1 := by
  simp only [get_target]
  repeat' split
  all_goals rfl

lemma selectStep_isSome (active : Option ℤ) (scores : List (ℤ × ℚ))
    (acc : Option Candidate × ℚ) (c : Candidate) (h : acc.1.isSome) :
    ((selectStep active scores acc c).1).isSome := by
  unfold selectStep
  split
  all_goals split
  all_goals first | rfl | exact h

lemma selectFold_isSome (active : Option ℤ) (scores : List (ℤ × ℚ)) :
    ∀ (cs : List Candidate) (acc : Option Candidate × ℚ), acc.1.isSome →
      ((cs.foldl (selectStep active scores) acc).1).isSome := by
  intro cs
  induction cs with
  | nil => intro acc h; exact h
  | cons c cs ih => intro acc h; exact ih _ (selectStep_isSome _ _ _ _ h)

lemma selectStep_cases (active : Option ℤ) (scores : List (ℤ × ℚ))
    (acc : Option Candidate × ℚ) (c : Candidate) :
    (selectStep active scores acc c).1 = some c ∨ selectStep active scores acc c = acc := by
  unfold selectStep
  split
  all_goals split
  all_goals first | exact Or.inl rfl | exact Or.inr rfl

lemma selectFold_mem (active : Option ℤ) (scores : List (ℤ × ℚ)) :
    ∀ (cs : List Candidate) (acc : Option Candidate × ℚ) (bc : Candidate),
      ((cs.foldl (selectStep active scores) acc).1) = some bc →
      acc.1 = some bc ∨ bc ∈ cs := by
  intro cs
  induction cs with
  | nil => intro acc bc h; left; exact h
  | cons c cs ih =>
    intro acc bc h
    rcases ih (selectStep active scores acc c) bc h with h1 | h1
    · rcases selectStep_cases active scores acc c with h2 | h2
      · rw [h2] at h1
        injection h1 with h3
        right; rw [← h3]; exact List.mem_cons_self c cs
      · rw [h2] at h1
        left; exact h1
    · right; exact List.mem_cons_of_mem _ h1

lemma selectBest_some (active : Option ℤ) (scores : List (ℤ × ℚ))
    (c0 : Candidate) (cs : List Candidate)
    (hval : 0 ≤ dictGet scores c0.id 0) :
    ∃ bc, selectBest active scores (c0 :: cs) = some bc ∧ bc ∈ c0 :: cs := by
  have hstep : ((selectStep active scores ((none : Option Candidate), (-1 : ℚ)) c0).1).isSome := by
    unfold selectStep
    rw [if_pos]
    · rfl
    · show (if some c0.id = active then dictGet scores c0.id 0 * 3
          else dictGet scores c0.id 0) > (-1 : ℚ)
      split_ifs <;> linarith
  have h1 := selectFold_isSome active scores cs _ hstep
  obtain ⟨bc, hbc⟩ := Option.isSome_iff_exists.mp h1
  refine ⟨bc, hbc, ?_⟩
  rcases selectFold_mem active scores cs _ bc hbc with h2 | h2
  · rcases selectStep_cases active scores ((none : Option Candidate), (-1 : ℚ)) c0 with h3 | h3
    · rw [h3] at h2
      injection h2 with h4
      rw [← h4]
      exact List.mem_cons_self c0 cs
    · rw [h3] at h2
      cases h2
  · exact List.mem_cons_of_mem _ h2

lemma selectBest_mem (active : Option ℤ) (scores : List (ℤ × ℚ))
    {cands : List Candidate} {bc : Candidate}
    (h : selectBest active scores cands = some bc) : bc ∈ cands := by
  rcases selectFold_mem active scores cands ((none : Option Candidate), (-1 : ℚ)) bc h
    with h1 | h1
  · cases h1
  · exact h1

/-- C3: in a `get_target` call within the switch cooldown
(`frame_number - last_switch_frame < switch_cooldown`), if the active
speaker's identity is among the frame's matched candidates then the active
speaker id is unchanged and the returned box belongs to a candidate carrying
the active id, even if another identity won the score race. -/
theorem cooldown_keeps_active_speaker (s : Tracker) (faces : List FaceDet)
    (frame_number : ℤ) (width : ℚ)
    (hcool : frame_number - s.last_switch_frame < s.switch_cooldown)
    (hactive : ∃ c ∈ (matchCandidates width frame_number faces (s.known_faces, s.next_id)).1,
        some c.id = s.active_speaker_id)
    (hfaces : ∀ f ∈ faces, 0 ≤ f.score) :
    (get_target s faces frame_number width).2.active_speaker_id = s.active_speaker_id ∧
    ∃ c ∈ (matchCandidates width frame_number faces (s.known_faces, s.next_id)).1,
      some c.id = s.active_speaker_id ∧
      (get_target s faces frame_number width).1 = some c.box := by
  obtain ⟨c, hcmem, hcid⟩ := hactive
  obtain ⟨c0, cs, hcands⟩ :=
    List.exists_cons_of_ne_nil (List.ne_nil_of_mem hcmem)
  have hdec : ∀ e ∈ decayScores s.speaker_scores, 0 ≤ e.2 :=
    fun e he => le_trans (by norm_num) (decayScores_ge _ e he)
  have hcsc : ∀ cc ∈ (matchCandidates width frame_number faces (s.known_faces, s.next_id)).1,
      0 ≤ cc.score := matchCandidates_score_nonneg width frame_number hfaces _
  rw [hcands] at hcsc hcmem
  have hsc2 : ∀ e ∈ accumScores width (decayScores s.speaker_scores) (c0 :: cs), 0 ≤ e.2 :=
    accumScores_nonneg width (c0 :: cs) _ hdec hcsc
  obtain ⟨bc, hbc, _⟩ :=
    selectBest_some s.active_speaker_id
      (accumScores width (decayScores s.speaker_scores) (c0 :: cs)) c0 cs
      (dictGet_nonneg hsc2 c0.id)
  simp only [get_target]
  rw [hcands]
  split
  · next hemp =>
    exfalso
    rw [List.isEmpty_iff] at hemp
    rw [hemp] at hcmem
    cases hcmem
  · split
    · next hnone =>
      exfalso
      rw [hbc] at hnone
      cases hnone
    · next bc' hbc' =>
      split
      · next hb =>
        exact ⟨rfl, bc', selectBest_mem _ _ hbc', hb, rfl⟩
      · next hb =>
        split
        · next oc hoc =>
          refine ⟨rfl, oc, List.mem_of_find?_eq_some hoc, ?_, rfl⟩
          simpa using List.find?_some hoc
        · next hnone =>
          exfalso
          have := List.find?_eq_none.mp hnone c hcmem
          simp [hcid] at this

/-- C3 witness: on the tracker `trackC3` with the detections `facesC3`, the
new face scores far higher, yet within the cooldown the incumbent id 0 is
kept and its box (450, 0, 100, 80) is returned. -/
theorem cooldown_keeps_active_speaker_witness :
    (get_target trackC3 facesC3 100 1000).2.active_speaker_id = trackC3.active_speaker_id ∧
    ∃ c ∈ (matchCandidates 1000 100 facesC3 (trackC3.known_faces, trackC3.next_id)).1,
      some c.id = trackC3.active_speaker_id ∧
      (get_target trackC3 facesC3 100 1000).1 = some c.box :=
  cooldown_keeps_active_speaker trackC3 facesC3 100 1000
    (by norm_num [trackC3, mkTracker])
    (by
      refine ⟨⟨0, (450, 0, 100, 80), 100⟩, ?_, ?_⟩
      · norm_num [trackC3, mkTracker, facesC3, matchCandidates, matchFace, bestMatch,
          matchStep, faceCenter]
      · norm_num [trackC3, mkTracker])
    (by
      intro f hf
      simp only [facesC3, List.mem_cons, List.not_mem_nil, or_false] at hf
      rcases hf with rfl | rfl
      · norm_num
      · norm_num)

/-- C6 (counterexample): a single new face of score 10 on a 100 px wide frame
adds `10 / (100 * 100 * 0.05) = 0.02` to a fresh accumulator, so right after
the `get_target` call the retained entry 0.02 is below the 0.1 threshold: the
threshold only prunes the decay step, not the accumulation step. -/
theorem score_below_threshold_counterexample :
    (get_target (mkTracker 15 30) [⟨(0, 0, 10, 10), 10⟩] 0 100).2.speaker_scores =
      [(0, 1 / 50)] ∧ (1 : ℚ) / 50 < 1 / 10 := by
  constructor
  · rw [get_target_scores]
    norm_num [mkTracker, matchCandidates, matchFace, bestMatch, matchStep, faceCenter,
      decayScores, accumScores, dictGet, dictSet]
  · norm_num

/-- C6 (amended): after a `get_target` call, every retained entry of
`speaker_scores` whose identity is not among this frame's matched candidates
(so it was only decayed, not accumulated into) has value at least 0.1;
entries receiving a fresh contribution this frame may be smaller. -/
theorem retained_scores_above_threshold (s : Tracker) (faces : List FaceDet)
    (frame_number : ℤ) (width : ℚ) :
    ∀ e ∈ (get_target s faces frame_number width).2.speaker_scores,
      e.1 ∉ ((matchCandidates width frame_number faces (s.known_faces, s.next_id)).1.map
        Candidate.id) →
      1 / 10 ≤ e.2 := by
  intro e he hno
  rw [get_target_scores] at he
  exact decayScores_ge _ e (accumScores_untouched width _ _ e he hno)

/-- C6 witness: the tracker `trackC6` sees no faces, its entry for identity 5
decays from 1 to 0.85 and is retained above the 0.1 threshold. -/
theorem retained_scores_above_threshold_witness :
    (1 : ℚ) / 10 ≤ (((5 : ℤ), (17 : ℚ) / 20)).2 :=
  retained_scores_above_threshold trackC6 [] 0 100 ((5 : ℤ), (17 : ℚ) / 20)
    (by norm_num [get_target_scores, trackC6, mkTracker, matchCandidates, decayScores,
      accumScores])
    (by simp [matchCandidates])

lemma bestMatch_none (width : ℚ) (frame_number : ℤ) (center : ℚ)
    (kfs : List KnownFace)
    (h : ∀ kf ∈ kfs, frame_number - kf.last_frame ≤ 30 →
        width * (3 / 20) < |center - kf.center|) :
    bestMatch width frame_number kfs center = -1 := by
  suffices key : ∀ ks : List KnownFace,
      (∀ kf ∈ ks, frame_number - kf.last_frame ≤ 30 →
        width * (3 / 20) < |center - kf.center|) →
      ks.foldl (matchStep frame_number center) ((-1 : ℤ), width * (3 / 20)) =
        ((-1 : ℤ), width * (3 / 20)) by
    unfold bestMatch
    rw [key kfs h]
  intro ks
  induction ks with
  | nil => intro _; rfl
  | cons kf rest ih =>
    intro hks
    rw [List.foldl_cons]
    have hstep : matchStep frame_number center ((-1 : ℤ), width * (3 / 20)) kf =
        ((-1 : ℤ), width * (3 / 20)) := by
      unfold matchStep
      by_cases hst : frame_number - kf.last_frame > 30
      · rw [if_pos hst]
      · rw [if_neg hst,
          if_neg (not_lt.mpr (le_of_lt
            (hks kf (List.mem_cons_self kf rest) (not_lt.mp hst))))]
    rw [hstep]
    exact ih (fun x hx => hks x (List.mem_cons_of_mem kf hx))

/-- C7: a face whose centre is farther than `0.15 * width` from every known
identity last seen within 30 frames is matched to none of them: it receives
the id `next_id`, which (given that all known ids are below `next_id`) was
never previously assigned, and the counter increments to `next_id + 1`. -/
theorem far_face_gets_fresh_id (width : ℚ) (frame_number : ℤ) (kfs : List KnownFace)
    (next_id : ℤ) (f : FaceDet)
    (hinv : ∀ kf ∈ kfs, kf.id < next_id)
    (hfar : ∀ kf ∈ kfs, frame_number - kf.last_frame ≤ 30 →
        width * (3 / 20) < |faceCenter f - kf.center|) :
    (matchFace width frame_number (kfs, next_id) f).1.id = next_id ∧
    next_id ∉ kfs.map KnownFace.id ∧
    (matchFace width frame_number (kfs, next_id) f).2.2 = next_id + 1 := by
  have hbm : bestMatch width frame_number kfs (faceCenter f) = -1 :=
    bestMatch_none width frame_number (faceCenter f) kfs hfar
  refine ⟨?_, ?_, ?_⟩
  · simp only [matchFace, hbm, if_pos]
  · intro hmem
    obtain ⟨kf, hkf, hid⟩ := List.mem_map.mp hmem
    exact absurd hid (ne_of_lt (hinv kf hkf))
  · simp only [matchFace, hbm, if_pos]

/-- C7 witness: on a 1000 px frame, a face at centre 900 against a single
known identity 0 at centre 500 (distance 400 > 150, seen 5 frames ago) gets
the fresh id 1 and the counter moves to 2. -/
theorem far_face_gets_fresh_id_witness :
    (matchFace 1000 100 ([⟨0, 500, 95⟩], 1) ⟨(850, 0, 100, 0), 5⟩).1.id = 1 ∧
    (1 : ℤ) ∉ [(⟨0, 500, 95⟩ : KnownFace)].map KnownFace.id ∧
    (matchFace 1000 100 ([⟨0, 500, 95⟩], 1) ⟨(850, 0, 100, 0), 5⟩).2.2 = 1 + 1 :=
  far_face_gets_fresh_id 1000 100 [⟨0, 500, 95⟩] 1 ⟨(850, 0, 100, 0), 5⟩
    (by
      intro kf hkf
      simp only [List.mem_singleton] at hkf
      rw [hkf]
      norm_num)
    (by
      intro kf hkf _
      simp only [List.mem_singleton] at hkf
      rw [hkf]
      norm_num [faceCenter])

/-- C10: in one `get_target` call on a fresh tracker with the two distinct
detections `facesC10` (centres 500 and 520 on a 1000 px frame), the second
candidate matches the identity entry the first one just created: both get
id 0, and both area scores accumulate into the single `speaker_scores` entry
`(0, 100/50000 + 200/50000) = (0, 3/500)`. -/
theorem same_frame_candidates_share_identity :
    ((matchCandidates 1000 0 facesC10
        ((mkTracker 15 30).known_faces, (mkTracker 15 30).next_id)).1.map Candidate.id =
      [0, 0]) ∧
    facesC10.length = 2 ∧ facesC10.get? 0 ≠ facesC10.get? 1 ∧
    (get_target (mkTracker 15 30) facesC10 0 1000).2.speaker_scores = [(0, 3 / 500)] := by
  refine ⟨?_, rfl, ?_, ?_⟩
  · norm_num [facesC10, mkTracker, matchCandidates, matchFace, bestMatch, matchStep,
      faceCenter]
  · norm_num [facesC10]
  · rw [get_target_scores]
    norm_num [facesC10, mkTracker, matchCandidates, matchFace, bestMatch, matchStep,
      faceCenter, decayScores, accumScores, dictGet, dictSet]

/-- The constructor always caps the crop width at the video width, so the
geometric hypothesis of the clamping lemmas holds for every camera the code
builds. -/
lemma mkCameraman_crop_le (ow oh vw vh : ℤ) (aspect : ℚ) :
    (mkCameraman ow oh vw vh aspect).crop_width ≤
      (mkCameraman ow oh vw vh aspect).video_width := by
  simp only [mkCameraman]
  split_ifs with h
  · exact le_refl vw
  · exact le_of_not_lt h

lemma sceneStrategy_nil : sceneStrategy [] = Strategy.GENERAL := by
  norm_num [sceneStrategy]

/-- C5 (counterexample): a scene none of whose three sample frames can be
read has an empty `face_counts`, the average is taken as 0, and `0 < 0.5`
classifies the scene GENERAL, not TRACK as claimed. -/
theorem no_reads_scene_counterexample :
    analyze_scenes_strategy (fun _ => none) [(0, 100)] = [Strategy.GENERAL] ∧
    Strategy.GENERAL ≠ Strategy.TRACK := by
  constructor
  · norm_num [analyze_scenes_strategy, sceneFaceCounts, sceneFrameChecks, sceneStrategy]
  · intro h
    cases h

/-- C5 (amended): every scene of `analyze_scenes_strategy` whose list of
successfully read sample counts is empty is classified GENERAL (its average
face count is taken as 0, which falls under the `< 0.5` branch). -/
theorem scene_with_no_reads_general (detect : ℤ → Option ℕ) (scenes : List (ℤ × ℤ))
    (i : ℕ) (sc : ℤ × ℤ) (hsc : scenes[i]? = some sc)
    (hempty : sceneFaceCounts detect sc.1 sc.2 = []) :
    (analyze_scenes_strategy detect scenes)[i]? = some Strategy.GENERAL := by
  unfold analyze_scenes_strategy
  rw [List.getElem?_map, hsc, Option.map_some']
  rw [hempty, sceneStrategy_nil]

/-- C5 witness: a one-scene video on which every frame read fails is
classified GENERAL. -/
theorem scene_with_no_reads_general_witness :
    (analyze_scenes_strategy (fun _ => none) [((0 : ℤ), (100 : ℤ))])[0]? =
      some Strategy.GENERAL :=
  scene_with_no_reads_general (fun _ => none) [(0, 100)] 0 (0, 100) rfl rfl

/-- C9: for every non-empty source frame and every crop box, the per-frame
step of `crop_video_to_vertical` writes a frame of exactly the target
1080x1920 dimensions (never zero-size), and whenever the crop rectangle is
degenerate (`crop.size == 0`) the full source frame is resized instead. -/
theorem written_frame_always_full_size (frame : Image) (x1 y1 x2 y2 : ℤ)
    (hr : 0 < frame.rows) (hc : 0 < frame.cols) :
    processFrame frame x1 y1 x2 y2 = some { rows := target_height, cols := target_width } ∧
    (npSize (npCrop frame y1 y2 x1 x2) = 0 →
      processFrame frame x1 y1 x2 y2 = cvResize frame target_width target_height) ∧
    0 < target_height ∧ 0 < target_width := by
  refine ⟨?_, ?_, by norm_num [target_height], by norm_num [target_width]⟩
  · simp only [processFrame]
    by_cases h : npSize (npCrop frame y1 y2 x1 x2) = 0
    · rw [if_pos h]
      unfold cvResize
      rw [if_pos ⟨hr, hc⟩]
    · rw [if_neg h]
      unfold cvResize
      rw [if_pos]
      have hrows0 : 0 ≤ npSliceLen frame.rows y1 y2 := le_max_left 0 _
      have hcols0 : 0 ≤ npSliceLen frame.cols x1 x2 := le_max_left 0 _
      unfold npSize npCrop at h
      constructor
      · rcases hrows0.lt_or_eq with h1 | h1
        · exact h1
        · exfalso
          rw [← h1] at h
          simp at h
      · rcases hcols0.lt_or_eq with h1 | h1
        · exact h1
        · exfalso
          rw [← h1] at h
          simp at h
  · intro h
    simp only [processFrame]
    rw [if_pos h]

/-- C9 witness: a 1280x720 source frame with the degenerate crop box
`x1 = x2 = 0` takes the full-frame fallback and still yields a 1080x1920
output frame. -/
theorem written_frame_always_full_size_witness :
    processFrame ⟨720, 1280⟩ 0 0 0 640 =
      some { rows := target_height, cols := target_width } ∧
    (npSize (npCrop ⟨720, 1280⟩ 0 640 0 0) = 0 →
      processFrame ⟨720, 1280⟩ 0 0 0 640 =
        cvResize ⟨720, 1280⟩ target_width target_height) ∧
    0 < target_height ∧ 0 < target_width :=
  written_frame_always_full_size ⟨720, 1280⟩ 0 0 0 640 (by norm_num) (by norm_num)

end OpusVideo
